import Mathlib

/-!
# Verification of the git-agent session core

A shallow embedding, in Lean 4, of the session lifecycle manager,
streaming-message reducer and error classifier of the `git-agent`
terminal client, together with proofs and refutations of the stated
properties of those components.

The embedding follows the TypeScript source:

* `useMessageState.tsx` — the Message Store reducer
  (`addMessage`, `addPendingMessage`, `updateLastPendingMessage`,
  `addToolMessage`, `clearMessages`, `removeMessage`);
* `error-parser` module — `parseTimeoutData`, `parseStringData`,
  `parseInternalErrorData`, `formatActorError`, `formatWitActorError`;
* the `channelStream.onMessage` frame handlers of the two chat UI
  variants (the pending-placeholder variant and the simplified
  variant), `sendMessage`, and the `cleanup` / `stopActor` path.

JavaScript dynamic values are modelled by the acyclic `JSValue`
inductive; machine timestamps (`new Date()`) by explicit `Nat`
parameters threaded through every mutating operation.
-/

namespace GitAgent

/-- `Message['role']` of `terminal-chat-ui` — fixed closed set. -/
inductive Role where
  | user
  | assistant
  | system
  | tool
  | error
deriving DecidableEq, Repr

/-- `Message['status']`. -/
inductive Status where
  | pending
  | complete
deriving DecidableEq, Repr

/-- One transcript entry, after `Message` of `terminal-chat-ui`.
`timestamp` stands for the `new Date()` creation time. -/
structure Message where
  role : Role
  content : String
  timestamp : Nat
  status : Status
  toolName : Option String := none
  toolArgs : Option (List String) := none
deriving DecidableEq, Repr

/-- `addMessage` of `useMessageState`: append a freshly timestamped
message.  The source spreads `...(toolName && { toolName })`, so an
empty-string `toolName` is dropped (falsy), while `...(toolArgs &&
{ toolArgs })` keeps an empty array (truthy). -/
def addMessage (msgs : List Message) (role : Role) (content : String)
    (status : Status) (toolName : Option String)
    (toolArgs : Option (List String)) (now : Nat) : List Message :=
  msgs ++ [{ role := role, content := content, timestamp := now,
             status := status,
             toolName := match toolName with
               | some s => if s = "" then none else some s
               | none => none,
             toolArgs := toolArgs }]

/-- `addPendingMessage` of `useMessageState`. -/
def addPendingMessage (msgs : List Message) (role : Role)
    (content : String) (now : Nat) : List Message :=
  addMessage msgs role content .pending none none now

/-- Helper for `updateLastPendingMessage`: walking a reversed
transcript, replace the content and status of the first message with
`status = pending` (i.e. the last one in transcript order) and stop. -/
def updateFirstPendingRev (msgs : List Message) (content : String)
    (status : Status) : List Message :=
  match msgs with
  | [] => []
  | m :: rest =>
    if m.status = .pending then
      { m with content := content, status := status } :: rest
    else
      m :: updateFirstPendingRev rest content status

/-- `updateLastPendingMessage` of `useMessageState`: scan the
transcript backwards for the first pending message, overwrite its
content and status in place (`status` defaults to `complete` at the
call sites that finalize), leave everything else untouched. -/
def updateLastPendingMessage (msgs : List Message) (content : String)
    (status : Status) : List Message :=
  (updateFirstPendingRev msgs.reverse content status).reverse

/-- Is a message a pending assistant entry? -/
def isPendingAssistant (m : Message) : Bool :=
  decide (m.role = Role.assistant ∧ m.status = Status.pending)

/-- Does the transcript contain a pending assistant message? -/
def hasPendingAssistant (msgs : List Message) : Bool :=
  msgs.any isPendingAssistant

/-- Helper for `addToolMessage`: walking the reversed transcript, find
the first pending assistant message (the last one in transcript order)
and place the tool message just after it in reversed order, i.e. just
before it in transcript order.  `none` when no pending assistant
exists, mirroring `insertIndex = newMessages.length`. -/
def insertToolRev (msgs : List Message) (t : Message) :
    Option (List Message) :=
  match msgs with
  | [] => none
  | m :: rest =>
    if isPendingAssistant m then
      some (m :: t :: rest)
    else
      (insertToolRev rest t).map (m :: ·)

/-- The tool transcript entry built by `addToolMessage`. -/
def mkToolMessage (toolName : String) (toolArgs : List String)
    (now : Nat) : Message :=
  { role := .tool, content := "", timestamp := now, status := .complete,
    toolName := some toolName, toolArgs := some toolArgs }

/-- `addToolMessage` of `useMessageState`: build a complete `tool`
message and insert it immediately before the last pending assistant
message; when no pending assistant exists, `insertIndex` defaults to
the length of the list, so the tool message is appended at the end. -/
def addToolMessage (msgs : List Message) (toolName : String)
    (toolArgs : List String) (now : Nat) : List Message :=
  let t := mkToolMessage toolName toolArgs now
  match insertToolRev msgs.reverse t with
  | some l => l.reverse
  | none => msgs ++ [t]

/-- `clearMessages` of `useMessageState`. -/
def clearMessages (_msgs : List Message) : List Message := []

/-- `removeMessage` of `useMessageState`:
`prev.filter((_, i) => i !== index)`, i.e. erase the entry at an index
(identity when the index is out of range). -/
def removeMessage (msgs : List Message) (i : Nat) : List Message :=
  match msgs, i with
  | [], _ => []
  | _ :: rest, 0 => rest
  | m :: rest, Nat.succ j => m :: removeMessage rest j

/-- One Message Store reducer operation, as enumerated by the spec:
`addMessage`, `addPendingMessage`, `updateLastPendingMessage`,
`addToolMessage`, `clearMessages`, `removeMessage`. -/
inductive Op where
  | addMessage (role : Role) (content : String) (status : Status)
      (toolName : Option String) (toolArgs : Option (List String))
  | addPendingMessage (role : Role) (content : String)
  | updateLastPendingMessage (content : String) (status : Status)
  | addToolMessage (toolName : String) (toolArgs : List String)
  | clearMessages
  | removeMessage (i : Nat)
deriving DecidableEq, Repr

/-- Apply one reducer operation at clock time `now`. -/
def applyOp (msgs : List Message) (op : Op) (now : Nat) : List Message :=
  match op with
  | .addMessage r c s tn ta => addMessage msgs r c s tn ta now
  | .addPendingMessage r c => addPendingMessage msgs r c now
  | .updateLastPendingMessage c s => updateLastPendingMessage msgs c s
  | .addToolMessage n a => addToolMessage msgs n a now
  | .clearMessages => clearMessages msgs
  | .removeMessage i => removeMessage msgs i

/-- Run a timestamped sequence of reducer operations. -/
def runOps (ops : List (Op × Nat)) (msgs : List Message) :
    List Message :=
  match ops with
  | [] => msgs
  | (op, now) :: rest => runOps rest (applyOp msgs op now)

/-- Number of pending assistant messages in a transcript. -/
def pendingAssistantCount (msgs : List Message) : Nat :=
  msgs.countP isPendingAssistant

end GitAgent

namespace GitAgent

theorem insertToolRev_none_of_no_pending (msgs : List Message)
    (t : Message) (h : ∀ m ∈ msgs, isPendingAssistant m = false) :
    insertToolRev msgs t = none := by
  induction msgs with
  | nil => rfl
  | cons m rest ih =>
    have hm : isPendingAssistant m = false := h m (by simp)
    simp only [insertToolRev]
    rw [if_neg (by simp [hm]), ih (fun x hx => h x (by simp [hx]))]
    rfl

theorem addToolMessage_append_of_no_pending (msgs : List Message)
    (toolName : String) (toolArgs : List String) (now : Nat)
    (h : hasPendingAssistant msgs = false) :
    addToolMessage msgs toolName toolArgs now
      = msgs ++ [mkToolMessage toolName toolArgs now] := by
  have hall : ∀ m ∈ msgs.reverse, isPendingAssistant m = false := by
    intro m hm
    rw [List.mem_reverse] at hm
    have := List.any_eq_false.mp (by simpa [hasPendingAssistant] using h)
    simpa using this m hm
  show (match insertToolRev msgs.reverse
            (mkToolMessage toolName toolArgs now) with
        | some l => l.reverse
        | none => msgs ++ [mkToolMessage toolName toolArgs now])
      = msgs ++ [mkToolMessage toolName toolArgs now]
  rw [insertToolRev_none_of_no_pending _ _ hall]

/-- C10: when no pending assistant message exists, `addToolMessage`
appends the tool message at the end, leaving all entries in place. -/
theorem addToolMessage_no_pending_appends (msgs : List Message)
    (toolName : String) (toolArgs : List String) (now : Nat)
    (h : hasPendingAssistant msgs = false) :
    addToolMessage msgs toolName toolArgs now
      = msgs ++ [mkToolMessage toolName toolArgs now] :=
  addToolMessage_append_of_no_pending msgs toolName toolArgs now h

/-- Closed witness for `addToolMessage_no_pending_appends` at a
transcript with one complete user message. -/
theorem addToolMessage_no_pending_appends_witness :
    addToolMessage
        [{ role := .user, content := "hi", timestamp := 0,
           status := .complete }] "git_status" ["-s"] 3
      = [{ role := .user, content := "hi", timestamp := 0,
           status := .complete },
         mkToolMessage "git_status" ["-s"] 3] :=
  addToolMessage_no_pending_appends _ "git_status" ["-s"] 3 (by decide)

/-- Does this operation append a new pending assistant entry?  Only
`addMessage` invoked with role `assistant` and status `pending`, and
`addPendingMessage` invoked with role `assistant`, do. -/
def opOpensPendingAssistant (op : Op) : Bool :=
  match op with
  | .addMessage r _ s _ _ => decide (r = Role.assistant ∧ s = Status.pending)
  | .addPendingMessage r _ => decide (r = Role.assistant)
  | _ => false

/-- Guard on an operation sequence: every operation that appends a
pending assistant entry is performed only on a transcript that has no
pending assistant message yet. -/
def guardedPending (ops : List (Op × Nat)) (msgs : List Message) : Bool :=
  match ops with
  | [] => true
  | (op, now) :: rest =>
    (!opOpensPendingAssistant op || pendingAssistantCount msgs == 0)
      && guardedPending rest (applyOp msgs op now)

theorem countP_updateFirstPendingRev_le (msgs : List Message)
    (c : String) (s : Status) :
    (updateFirstPendingRev msgs c s).countP isPendingAssistant
      ≤ msgs.countP isPendingAssistant := by
  induction msgs with
  | nil => simp [updateFirstPendingRev]
  | cons m rest ih =>
    by_cases hp : m.status = Status.pending
    · have heq : updateFirstPendingRev (m :: rest) c s
          = { m with content := c, status := s } :: rest := by
        simp only [updateFirstPendingRev]; rw [if_pos hp]
      rw [heq, List.countP_cons, List.countP_cons]
      have hle : (if isPendingAssistant
            { m with content := c, status := s } = true then 1 else 0)
          ≤ (if isPendingAssistant m = true then 1 else 0) := by
        by_cases hr : m.role = Role.assistant <;>
          by_cases hs : s = Status.pending <;>
            simp [isPendingAssistant, hr, hs, hp]
      omega
    · have heq : updateFirstPendingRev (m :: rest) c s
          = m :: updateFirstPendingRev rest c s := by
        simp only [updateFirstPendingRev]; rw [if_neg hp]
      rw [heq, List.countP_cons, List.countP_cons]
      omega

theorem pendingAssistantCount_updateLastPendingMessage_le
    (msgs : List Message) (c : String) (s : Status) :
    pendingAssistantCount (updateLastPendingMessage msgs c s)
      ≤ pendingAssistantCount msgs := by
  unfold pendingAssistantCount updateLastPendingMessage
  rw [List.countP_reverse]
  calc (updateFirstPendingRev msgs.reverse c s).countP isPendingAssistant
      ≤ msgs.reverse.countP isPendingAssistant :=
        countP_updateFirstPendingRev_le _ _ _
    _ = msgs.countP isPendingAssistant := List.countP_reverse _ _

theorem countP_insertToolRev (msgs l' : List Message) (t : Message)
    (ht : isPendingAssistant t = false)
    (h : insertToolRev msgs t = some l') :
    l'.countP isPendingAssistant = msgs.countP isPendingAssistant := by
  induction msgs generalizing l' with
  | nil => simp [insertToolRev] at h
  | cons m rest ih =>
    simp only [insertToolRev] at h
    by_cases hm : isPendingAssistant m = true
    · rw [if_pos hm] at h
      cases h
      simp [List.countP_cons, ht]
    · rw [if_neg hm] at h
      match hrec : insertToolRev rest t with
      | none => rw [hrec] at h; simp at h
      | some l'' =>
        rw [hrec] at h
        have h' : l' = m :: l'' := by simpa using h.symm
        subst h'
        simp only [List.countP_cons, ih l'' hrec]

theorem pendingAssistantCount_addToolMessage (msgs : List Message)
    (n : String) (a : List String) (now : Nat) :
    pendingAssistantCount (addToolMessage msgs n a now)
      = pendingAssistantCount msgs := by
  have ht : isPendingAssistant (mkToolMessage n a now) = false := by
    simp [isPendingAssistant, mkToolMessage]
  unfold pendingAssistantCount
  show (match insertToolRev msgs.reverse (mkToolMessage n a now) with
        | some l => l.reverse
        | none => msgs ++ [mkToolMessage n a now]).countP isPendingAssistant
      = msgs.countP isPendingAssistant
  match hrec : insertToolRev msgs.reverse (mkToolMessage n a now) with
  | some l' =>
    show l'.reverse.countP isPendingAssistant
      = msgs.countP isPendingAssistant
    rw [List.countP_reverse, countP_insertToolRev _ _ _ ht hrec,
      List.countP_reverse]
  | none =>
    show (msgs ++ [mkToolMessage n a now]).countP isPendingAssistant
      = msgs.countP isPendingAssistant
    rw [List.countP_append]
    simp [ht]

theorem pendingAssistantCount_addMessage (msgs : List Message)
    (r : Role) (c : String) (s : Status) (tn : Option String)
    (ta : Option (List String)) (now : Nat) :
    pendingAssistantCount (addMessage msgs r c s tn ta now)
      = pendingAssistantCount msgs
        + (if r = Role.assistant ∧ s = Status.pending then 1 else 0) := by
  unfold pendingAssistantCount addMessage
  rw [List.countP_append]
  simp only [List.countP_cons, List.countP_nil, isPendingAssistant]
  by_cases h : r = Role.assistant ∧ s = Status.pending <;> simp [h]

theorem removeMessage_eq_eraseIdx (msgs : List Message) (i : Nat) :
    removeMessage msgs i = msgs.eraseIdx i := by
  induction msgs generalizing i with
  | nil => cases i <;> rfl
  | cons m rest ih =>
    cases i with
    | zero => rfl
    | succ j => simp [removeMessage, List.eraseIdx, ih]

theorem pendingAssistantCount_applyOp_le (msgs : List Message)
    (op : Op) (now : Nat)
    (hguard : opOpensPendingAssistant op = true
      → pendingAssistantCount msgs = 0)
    (h : pendingAssistantCount msgs ≤ 1) :
    pendingAssistantCount (applyOp msgs op now) ≤ 1 := by
  cases op with
  | addMessage r c s tn ta =>
    simp only [applyOp]
    rw [pendingAssistantCount_addMessage]
    by_cases hrs : r = Role.assistant ∧ s = Status.pending
    · have := hguard (by simp [opOpensPendingAssistant, hrs])
      simp [hrs, this]
    · simp [hrs, h]
  | addPendingMessage r c =>
    simp only [applyOp, addPendingMessage]
    rw [pendingAssistantCount_addMessage]
    by_cases hr : r = Role.assistant
    · have := hguard (by simp [opOpensPendingAssistant, hr])
      simp [hr, this]
    · simp [hr, h]
  | updateLastPendingMessage c s =>
    exact le_trans
      (pendingAssistantCount_updateLastPendingMessage_le msgs c s) h
  | addToolMessage n a =>
    simpa [applyOp, pendingAssistantCount_addToolMessage] using h
  | clearMessages =>
    simp [applyOp, clearMessages, pendingAssistantCount]
  | removeMessage i =>
    simp only [applyOp]
    rw [removeMessage_eq_eraseIdx]
    exact le_trans
      (List.Sublist.countP_le _ (List.eraseIdx_sublist msgs i)) h

theorem pendingAssistantCount_runOps_le (ops : List (Op × Nat))
    (msgs : List Message)
    (hguard : guardedPending ops msgs = true)
    (h : pendingAssistantCount msgs ≤ 1) :
    pendingAssistantCount (runOps ops msgs) ≤ 1 := by
  induction ops generalizing msgs with
  | nil => simpa [runOps] using h
  | cons opn rest ih =>
    obtain ⟨op, now⟩ := opn
    simp only [guardedPending, Bool.and_eq_true, Bool.or_eq_true,
      Bool.not_eq_true', beq_iff_eq] at hguard
    refine ih (applyOp msgs op now) hguard.2 ?_
    refine pendingAssistantCount_applyOp_le msgs op now ?_ h
    intro hop
    rcases hguard.1 with hfalse | hzero
    · rw [hop] at hfalse; cases hfalse
    · exact hzero

/-- C3 fails as stated: the reducer puts no guard on
`addPendingMessage`, so invoking it twice with role `assistant` from
the empty transcript yields two pending assistant messages. -/
theorem two_pending_assistants_reachable :
    ¬ (∀ ops : List (Op × Nat),
        pendingAssistantCount (runOps ops []) ≤ 1) := by
  intro h
  have h2 := h [(Op.addPendingMessage .assistant "", 0),
                (Op.addPendingMessage .assistant "", 1)]
  revert h2
  decide

/-- C3 (amended): after any sequence of reducer operations starting
from the empty transcript in which an operation appending a pending
assistant entry (`addPendingMessage` with role `assistant`, or
`addMessage` with role `assistant` and status `pending`) is only ever
invoked when the transcript holds no pending assistant message, at
most one pending assistant message exists. -/
theorem at_most_one_pending_assistant (ops : List (Op × Nat))
    (hguard : guardedPending ops [] = true) :
    pendingAssistantCount (runOps ops []) ≤ 1 :=
  pendingAssistantCount_runOps_le ops [] hguard (by decide)

/-- Closed witness for `at_most_one_pending_assistant` on a concrete
guarded operation sequence. -/
theorem at_most_one_pending_assistant_witness :
    pendingAssistantCount (runOps
      [(Op.addMessage .user "hi" .complete none none, 0),
       (Op.addPendingMessage .assistant "", 1),
       (Op.addToolMessage "git_diff" [], 2),
       (Op.updateLastPendingMessage "done" .complete, 3),
       (Op.addPendingMessage .assistant "", 4)] []) ≤ 1 :=
  at_most_one_pending_assistant _ (by decide)

/-- Timestamps are monotonically non-decreasing in transcript order. -/
def timesMono (msgs : List Message) : Prop :=
  List.Pairwise (· ≤ ·) (msgs.map Message.timestamp)

/-- The clock times attached to an operation sequence are
non-decreasing and bounded below by `t` (the wall clock only moves
forward between reducer invocations). -/
def opsClockMono (t : Nat) (ops : List (Op × Nat)) : Bool :=
  match ops with
  | [] => true
  | (_, n) :: rest => decide (t ≤ n) && opsClockMono n rest

/-- Is this operation the tool-insertion operation? -/
def opIsToolInsert (op : Op) : Bool :=
  match op with
  | .addToolMessage _ _ => true
  | _ => false

/-- Guard on an operation sequence: `addToolMessage` is only ever
invoked on a transcript with no pending assistant message (so the tool
entry is appended at the end instead of being inserted mid-list). -/
def noToolWhilePending (ops : List (Op × Nat)) (msgs : List Message) :
    Bool :=
  match ops with
  | [] => true
  | (op, n) :: rest =>
    (!opIsToolInsert op || !hasPendingAssistant msgs)
      && noToolWhilePending rest (applyOp msgs op n)

theorem map_timestamp_updateFirstPendingRev (msgs : List Message)
    (c : String) (s : Status) :
    (updateFirstPendingRev msgs c s).map Message.timestamp
      = msgs.map Message.timestamp := by
  induction msgs with
  | nil => rfl
  | cons m rest ih =>
    by_cases hp : m.status = Status.pending
    · have heq : updateFirstPendingRev (m :: rest) c s
          = { m with content := c, status := s } :: rest := by
        simp only [updateFirstPendingRev]; rw [if_pos hp]
      rw [heq]; rfl
    · have heq : updateFirstPendingRev (m :: rest) c s
          = m :: updateFirstPendingRev rest c s := by
        simp only [updateFirstPendingRev]; rw [if_neg hp]
      rw [heq, List.map_cons, List.map_cons, ih]

theorem map_timestamp_updateLastPendingMessage (msgs : List Message)
    (c : String) (s : Status) :
    (updateLastPendingMessage msgs c s).map Message.timestamp
      = msgs.map Message.timestamp := by
  unfold updateLastPendingMessage
  rw [List.map_reverse, map_timestamp_updateFirstPendingRev,
    List.map_reverse, List.reverse_reverse]

theorem timesMono_append_now (msgs : List Message) (m : Message)
    (t : Nat) (hmono : timesMono msgs)
    (hbound : ∀ x ∈ msgs.map Message.timestamp, x ≤ t)
    (hts : t ≤ m.timestamp) : timesMono (msgs ++ [m]) := by
  unfold timesMono at *
  rw [List.map_append, List.pairwise_append]
  refine ⟨hmono, List.pairwise_singleton _ _, ?_⟩
  intro a ha b hb
  simp only [List.map_cons, List.map_nil, List.mem_singleton] at hb
  subst hb
  exact le_trans (hbound a ha) hts

theorem timesMono_applyOp (msgs : List Message) (op : Op)
    (t n : Nat)
    (hmono : timesMono msgs)
    (hbound : ∀ x ∈ msgs.map Message.timestamp, x ≤ t)
    (htn : t ≤ n)
    (hguard : opIsToolInsert op = true → hasPendingAssistant msgs = false) :
    timesMono (applyOp msgs op n)
      ∧ ∀ x ∈ (applyOp msgs op n).map Message.timestamp, x ≤ n := by
  have hbound' : ∀ x ∈ msgs.map Message.timestamp, x ≤ n :=
    fun x hx => le_trans (hbound x hx) htn
  cases op with
  | addMessage r c s tn ta =>
    refine ⟨timesMono_append_now msgs _ t hmono hbound (by simpa), ?_⟩
    intro x hx
    simp only [applyOp, addMessage, List.map_append, List.mem_append,
      List.map_cons, List.map_nil, List.mem_singleton] at hx
    rcases hx with hx | hx
    · exact hbound' x hx
    · simp [hx]
  | addPendingMessage r c =>
    refine ⟨timesMono_append_now msgs _ t hmono hbound (by simpa), ?_⟩
    intro x hx
    simp only [applyOp, addPendingMessage, addMessage, List.map_append,
      List.mem_append, List.map_cons, List.map_nil,
      List.mem_singleton] at hx
    rcases hx with hx | hx
    · exact hbound' x hx
    · simp [hx]
  | updateLastPendingMessage c s =>
    constructor
    · unfold timesMono at *
      simpa [applyOp, map_timestamp_updateLastPendingMessage] using hmono
    · intro x hx
      refine hbound' x ?_
      simpa [applyOp, map_timestamp_updateLastPendingMessage] using hx
  | addToolMessage name args =>
    have hnp : hasPendingAssistant msgs = false := hguard rfl
    have happ : applyOp msgs (.addToolMessage name args) n
        = msgs ++ [mkToolMessage name args n] :=
      addToolMessage_append_of_no_pending msgs name args n hnp
    rw [happ]
    refine ⟨timesMono_append_now msgs _ t hmono hbound
      (by simp [mkToolMessage, htn]), ?_⟩
    intro x hx
    simp only [List.map_append, List.mem_append, List.map_cons,
      List.map_nil, List.mem_singleton] at hx
    rcases hx with hx | hx
    · exact hbound' x hx
    · simp [hx, mkToolMessage]
  | clearMessages =>
    exact ⟨by simp [applyOp, clearMessages, timesMono], by
      simp [applyOp, clearMessages]⟩
  | removeMessage i =>
    have hsub : List.Sublist (removeMessage msgs i) msgs := by
      rw [removeMessage_eq_eraseIdx]; exact List.eraseIdx_sublist msgs i
    have hsubmap : List.Sublist
        ((removeMessage msgs i).map Message.timestamp)
        (msgs.map Message.timestamp) := List.Sublist.map _ hsub
    exact ⟨List.Pairwise.sublist hsubmap hmono,
      fun x hx => hbound' x (hsubmap.subset hx)⟩

theorem timesMono_runOps (ops : List (Op × Nat)) (msgs : List Message)
    (t : Nat)
    (hclock : opsClockMono t ops = true)
    (hguard : noToolWhilePending ops msgs = true)
    (hmono : timesMono msgs)
    (hbound : ∀ x ∈ msgs.map Message.timestamp, x ≤ t) :
    timesMono (runOps ops msgs) := by
  induction ops generalizing msgs t with
  | nil => simpa [runOps] using hmono
  | cons opn rest ih =>
    obtain ⟨op, n⟩ := opn
    simp only [opsClockMono, Bool.and_eq_true, decide_eq_true_eq]
      at hclock
    simp only [noToolWhilePending, Bool.and_eq_true, Bool.or_eq_true,
      Bool.not_eq_true'] at hguard
    have hstep := timesMono_applyOp msgs op t n hmono hbound hclock.1
      (fun hop => by
        rcases hguard.1 with hfalse | hnp
        · rw [hop] at hfalse; cases hfalse
        · exact hnp)
    exact ih (applyOp msgs op n) n hclock.2 hguard.2 hstep.1 hstep.2

/-- C8 fails as stated: with a pending assistant placeholder present,
`addToolMessage` inserts a freshly timestamped tool message *before*
the older pending entry, so transcript order is not timestamp order. -/
theorem timestamps_not_monotone :
    ¬ (∀ ops : List (Op × Nat), opsClockMono 0 ops = true
        → timesMono (runOps ops [])) := by
  intro h
  have h2 := h [(Op.addPendingMessage .assistant "", 0),
                (Op.addToolMessage "git_log" [], 5)] (by decide)
  revert h2
  unfold timesMono
  decide

/-- C8 (amended): after any sequence of reducer operations starting
from the empty transcript, applied at non-decreasing clock times, in
which `addToolMessage` is only ever invoked when no pending assistant
message exists, the timestamps of the transcript are monotonically
non-decreasing in transcript order. -/
theorem timestamps_monotone_of_no_tool_insert (ops : List (Op × Nat))
    (hclock : opsClockMono 0 ops = true)
    (hguard : noToolWhilePending ops [] = true) :
    timesMono (runOps ops []) :=
  timesMono_runOps ops [] 0 hclock hguard (by simp [timesMono]) (by simp)

/-- Closed witness for `timestamps_monotone_of_no_tool_insert` on a
concrete operation sequence. -/
theorem timestamps_monotone_of_no_tool_insert_witness :
    timesMono (runOps
      [(Op.addMessage .user "hi" .complete none none, 0),
       (Op.addToolMessage "git_diff" [], 1),
       (Op.addPendingMessage .assistant "", 2),
       (Op.updateLastPendingMessage "done" .complete, 3)] []) :=
  timestamps_monotone_of_no_tool_insert _ (by decide) (by decide)

/-! ## A model of the JavaScript values the error classifier and the
stream decoder operate on.

Arrays and objects carry their children through the mutual types
`JSElems` / `JSFields` so that every function on values is a plain
structural recursion.  A native `Error` instance is the `jsError`
constructor carrying its `message`; cyclic objects (impossible to
build here) and floating-point numbers are outside the model. -/

mutual

inductive JSValue where
  | undefined
  | null
  | bool (b : Bool)
  | num (n : Int)
  | str (s : String)
  | arr (elems : JSElems)
  | obj (fields : JSFields)
  | jsError (message : String)

inductive JSElems where
  | nil
  | cons (head : JSValue) (tail : JSElems)

inductive JSFields where
  | nil
  | cons (key : String) (val : JSValue) (tail : JSFields)

end

/-- Build an array value from a Lean list. -/
def jsArr (xs : List JSValue) : JSValue :=
  .arr (xs.foldr (fun v acc => JSElems.cons v acc) JSElems.nil)

/-- Build an object value from a Lean association list. -/
def jsObj (fs : List (String × JSValue)) : JSValue :=
  .obj (fs.foldr (fun kv acc => JSFields.cons kv.1 kv.2 acc) JSFields.nil)

/-- JavaScript truthiness (`NaN` is outside the model). -/
def jsTruthy (v : JSValue) : Bool :=
  match v with
  | .undefined => false
  | .null => false
  | .bool b => b
  | .num n => decide (n ≠ 0)
  | .str s => decide (s ≠ "")
  | .arr _ => true
  | .obj _ => true
  | .jsError _ => true

/-- `typeof v === 'object' && v !== null` (arrays and `Error`
instances are objects; `null` is excluded the way every call site in
the source excludes it). -/
def jsIsNonNullObject (v : JSValue) : Bool :=
  match v with
  | .arr _ => true
  | .obj _ => true
  | .jsError _ => true
  | _ => false

/-- `v === s` for a string literal `s`. -/
def jsEqStr (v : JSValue) (s : String) : Bool :=
  match v with
  | .str t => t == s
  | _ => false

def elemsToList (xs : JSElems) : List JSValue :=
  match xs with
  | .nil => []
  | .cons v rest => v :: elemsToList rest

def elemsLength (xs : JSElems) : Nat :=
  match xs with
  | .nil => 0
  | .cons _ rest => elemsLength rest + 1

def elemsGet (xs : JSElems) (i : Nat) : JSValue :=
  match xs, i with
  | .nil, _ => .undefined
  | .cons v _, 0 => v
  | .cons _ rest, Nat.succ j => elemsGet rest j

def fieldKeys (fs : JSFields) : List String :=
  match fs with
  | .nil => []
  | .cons k _ rest => k :: fieldKeys rest

def lookupField (fs : JSFields) (k : String) : JSValue :=
  match fs with
  | .nil => .undefined
  | .cons k' v rest => if k' = k then v else lookupField rest k

def hasField (fs : JSFields) (k : String) : Bool :=
  match fs with
  | .nil => false
  | .cons k' _ rest => if k' = k then true else hasField rest k

def fieldValues (fs : JSFields) : List JSValue :=
  match fs with
  | .nil => []
  | .cons _ v rest => v :: fieldValues rest

/-- Decimal digit test, shared by the array-index and JSON-number
parsing helpers. -/
def isDigitCh (c : Char) : Bool :=
  decide ('0' ≤ c) && decide (c ≤ '9')

def digitListToNat (acc : Nat) (cs : List Char) : Nat :=
  match cs with
  | [] => acc
  | c :: rest => digitListToNat (acc * 10 + (c.toNat - '0'.toNat)) rest

/-- A property key read as an array index, when it is all digits. -/
def strToIndex (k : String) : Option Nat :=
  match k.data with
  | [] => none
  | cs => if cs.all isDigitCh then some (digitListToNat 0 cs) else none

/-- Property read `v[k]` on a non-nullish value (missing property and
property reads on primitives give `undefined`). -/
def getProp (v : JSValue) (k : String) : JSValue :=
  match v with
  | .obj fs => lookupField fs k
  | .arr xs =>
    match strToIndex k with
    | some i => elemsGet xs i
    | none => .undefined
  | _ => .undefined

/-- `k in v`: property existence (own enumerable data properties; an
`Error` instance has none, its `message` being non-enumerable). -/
def hasProp (v : JSValue) (k : String) : Bool :=
  match v with
  | .obj fs => hasField fs k
  | .arr xs =>
    match strToIndex k with
    | some i => decide (i < elemsLength xs)
    | none => false
  | _ => false

/-- Optional chaining `v?.k`. -/
def optChain (v : JSValue) (k : String) : JSValue :=
  match v with
  | .undefined => .undefined
  | .null => .undefined
  | _ => getProp v k

/-- `a || b`. -/
def jsOr (a b : JSValue) : JSValue :=
  if jsTruthy a then a else b

/-- Index read `v[i]` on a non-nullish value. -/
def jsIndex (v : JSValue) (i : Nat) : JSValue :=
  match v with
  | .arr xs => elemsGet xs i
  | .obj fs => lookupField fs (toString i)
  | _ => .undefined

/-- `Object.keys` on an object (index keys for arrays, nothing for an
`Error` whose own properties are non-enumerable). -/
def objectKeys (v : JSValue) : List String :=
  match v with
  | .obj fs => fieldKeys fs
  | .arr xs => (List.range (elemsLength xs)).map toString
  | _ => []

/-- The apostrophe character, used inside classifier messages. -/
def apos : String := String.singleton (Char.ofNat 39)

mutual

/-- `String(v)` / template-literal coercion. -/
def jsToString (v : JSValue) : String :=
  match v with
  | .undefined => "undefined"
  | .null => "null"
  | .bool b => if b then "true" else "false"
  | .num n => toString n
  | .str s => s
  | .arr xs => String.intercalate "," (elemsToStrings xs)
  | .obj _ => "[object Object]"
  | .jsError m => "Error: " ++ m

def elemsToStrings (xs : JSElems) : List String :=
  match xs with
  | .nil => []
  | .cons v rest =>
    (match v with
     | .undefined => ""
     | .null => ""
     | _ => jsToString v) :: elemsToStrings rest

end

/-- `Object.values(v)` rendered to strings.  The source feeds the raw
values of a `tool_use` input map into the string-typed `toolArgs`
field; the model keeps their string rendering, which is what the UI
layer displays. -/
def objectValuesStr (v : JSValue) : List String :=
  match v with
  | .obj fs => (fieldValues fs).map jsToString
  | .arr xs => (elemsToList xs).map jsToString
  | _ => []

/-- JSON string escaping for `JSON.stringify` (quote and backslash;
control characters do not occur in the payloads considered). -/
def escapeJsonChar (c : Char) : String :=
  if c = Char.ofNat 34 then "\\\""
  else if c = Char.ofNat 92 then "\\\\"
  else String.singleton c

def quoteJson (s : String) : String :=
  "\"" ++ String.join (s.data.map escapeJsonChar) ++ "\""

mutual

/-- `JSON.stringify` (`none` = the JavaScript `undefined` result for
an undefined top-level value; `Error` instances stringify to the empty
object since their properties are non-enumerable). -/
def jsonStringify (v : JSValue) : Option String :=
  match v with
  | .undefined => none
  | .null => some "null"
  | .bool b => some (if b then "true" else "false")
  | .num n => some (toString n)
  | .str s => some (quoteJson s)
  | .arr xs => some ("[" ++ String.intercalate "," (stringifyElems xs) ++ "]")
  | .obj fs => some ("\x7b" ++ String.intercalate "," (stringifyFields fs) ++ "\x7d")
  | .jsError _ => some "\x7b\x7d"

def stringifyElems (xs : JSElems) : List String :=
  match xs with
  | .nil => []
  | .cons v rest =>
    ((jsonStringify v).getD "null") :: stringifyElems rest

def stringifyFields (fs : JSFields) : List String :=
  match fs with
  | .nil => []
  | .cons k v rest =>
    match jsonStringify v with
    | none => stringifyFields rest
    | some s => (quoteJson k ++ ":" ++ s) :: stringifyFields rest

end

/-- Template interpolation of a `JSON.stringify` result (an undefined
result prints as `undefined`). -/
def jsonStringifyD (v : JSValue) : String :=
  (jsonStringify v).getD "undefined"

/-! ## Platform builtins used by the error-parser module:
`TextDecoder().decode`, `JSON.parse`, `Uint8Array` coercion. -/

/-- The U+FFFD replacement character emitted on malformed input. -/
def replChar : Char := Char.ofNat 0xFFFD

/-- A code point, replaced when outside the valid range. -/
def codePoint (n : Nat) : Char :=
  if n.isValidChar then Char.ofNat n else replChar

def isContByte (b : Nat) : Bool :=
  decide (0x80 ≤ b) && decide (b < 0xC0)

/-- `TextDecoder().decode` on a byte list: lenient UTF-8, malformed
sequences become U+FFFD.  The fuel argument (instantiated with the
byte count, enough since every step consumes at least one byte) keeps
the recursion structural. -/
def utf8DecodeAux (fuel : Nat) (bytes : List Nat) : List Char :=
  match fuel with
  | 0 => []
  | fuel + 1 =>
    match bytes with
    | [] => []
    | b :: rest =>
      if b < 0x80 then codePoint b :: utf8DecodeAux fuel rest
      else if 0xC0 ≤ b ∧ b < 0xE0 then
        match rest with
        | b2 :: rest2 =>
          if isContByte b2 then
            codePoint ((b - 0xC0) * 0x40 + (b2 - 0x80))
              :: utf8DecodeAux fuel rest2
          else replChar :: utf8DecodeAux fuel rest
        | [] => [replChar]
      else if 0xE0 ≤ b ∧ b < 0xF0 then
        match rest with
        | b2 :: b3 :: rest3 =>
          if isContByte b2 && isContByte b3 then
            codePoint ((b - 0xE0) * 0x1000 + (b2 - 0x80) * 0x40
                + (b3 - 0x80))
              :: utf8DecodeAux fuel rest3
          else replChar :: utf8DecodeAux fuel rest
        | _ => [replChar]
      else if 0xF0 ≤ b ∧ b < 0xF8 then
        match rest with
        | b2 :: b3 :: b4 :: rest4 =>
          if isContByte b2 && isContByte b3 && isContByte b4 then
            codePoint ((b - 0xF0) * 0x40000 + (b2 - 0x80) * 0x1000
                + (b3 - 0x80) * 0x40 + (b4 - 0x80))
              :: utf8DecodeAux fuel rest4
          else replChar :: utf8DecodeAux fuel rest
        | _ => [replChar]
      else replChar :: utf8DecodeAux fuel rest

def utf8Decode (bytes : List Nat) : String :=
  String.mk (utf8DecodeAux bytes.length bytes)

def isJsonWs (c : Char) : Bool :=
  c = ' ' || c = '\t' || c = '\n' || c = '\r'

def skipJsonWs (cs : List Char) : List Char :=
  match cs with
  | [] => []
  | c :: rest => if isJsonWs c then skipJsonWs rest else c :: rest

def digitsToNat (acc : Nat) (cs : List Char) : Nat × List Char :=
  match cs with
  | [] => (acc, [])
  | c :: rest =>
    if isDigitCh c then digitsToNat (acc * 10 + (c.toNat - '0'.toNat)) rest
    else (acc, c :: rest)

/-- Parse a JSON string body after the opening quote. -/
def parseJsonString (cs : List Char) (acc : List Char) :
    Option (String × List Char) :=
  match cs with
  | [] => none
  | c :: rest =>
    if c = Char.ofNat 34 then some (String.mk acc.reverse, rest)
    else if c = Char.ofNat 92 then
      match rest with
      | [] => none
      | e :: rest2 =>
        let decoded :=
          if e = 'n' then '\n'
          else if e = 't' then '\t'
          else if e = 'r' then '\r'
          else e
        parseJsonString rest2 (decoded :: acc)
    else parseJsonString rest (c :: acc)

mutual

/-- A fuel-indexed model of `JSON.parse` (integers only; the payloads
the actor sends carry no fractional numbers).  Returns the value and
the unconsumed input. -/
def parseJsonVal (fuel : Nat) (cs : List Char) :
    Option (JSValue × List Char) :=
  match fuel with
  | 0 => none
  | fuel + 1 =>
    match skipJsonWs cs with
    | 'n' :: 'u' :: 'l' :: 'l' :: rest => some (.null, rest)
    | 't' :: 'r' :: 'u' :: 'e' :: rest => some (.bool true, rest)
    | 'f' :: 'a' :: 'l' :: 's' :: 'e' :: rest => some (.bool false, rest)
    | '-' :: c :: rest =>
      if isDigitCh c then
        let (n, rest') := digitsToNat 0 (c :: rest)
        some (.num (-(n : Int)), rest')
      else none
    | c :: rest =>
      if c = Char.ofNat 34 then
        match parseJsonString rest [] with
        | some (s, rest') => some (.str s, rest')
        | none => none
      else if c = '[' then
        match skipJsonWs rest with
        | ']' :: rest' => some (jsArr [], rest')
        | rest' =>
          match parseJsonElems fuel rest' [] with
          | some (xs, rest'') => some (jsArr xs.reverse, rest'')
          | none => none
      else if c = Char.ofNat 123 then
        match skipJsonWs rest with
        | d :: rest' =>
          if d = Char.ofNat 125 then some (jsObj [], rest')
          else
            match parseJsonFields fuel (d :: rest') [] with
            | some (fs, rest'') => some (jsObj fs.reverse, rest'')
            | none => none
        | [] => none
      else if isDigitCh c then
        let (n, rest') := digitsToNat 0 (c :: rest)
        some (.num (n : Int), rest')
      else none
    | [] => none

def parseJsonElems (fuel : Nat) (cs : List Char)
    (acc : List JSValue) : Option (List JSValue × List Char) :=
  match fuel with
  | 0 => none
  | fuel + 1 =>
    match parseJsonVal fuel cs with
    | none => none
    | some (v, rest) =>
      match skipJsonWs rest with
      | ',' :: rest' => parseJsonElems fuel rest' (v :: acc)
      | ']' :: rest' => some (v :: acc, rest')
      | _ => none

def parseJsonFields (fuel : Nat) (cs : List Char)
    (acc : List (String × JSValue)) :
    Option (List (String × JSValue) × List Char) :=
  match fuel with
  | 0 => none
  | fuel + 1 =>
    match skipJsonWs cs with
    | c :: rest =>
      if c = Char.ofNat 34 then
        match parseJsonString rest [] with
        | some (k, rest') =>
          match skipJsonWs rest' with
          | ':' :: rest'' =>
            match parseJsonVal fuel rest'' with
            | some (v, rest3) =>
              match skipJsonWs rest3 with
              | ',' :: rest4 => parseJsonFields fuel rest4 ((k, v) :: acc)
              | d :: rest4 =>
                if d = Char.ofNat 125 then some ((k, v) :: acc, rest4)
                else none
              | [] => none
            | none => none
          | _ => none
        | none => none
      else none
    | [] => none

end

/-- `JSON.parse`: parse the whole string, requiring only whitespace
after the value. -/
def jsonParse (s : String) : Option JSValue :=
  match parseJsonVal (s.length * 4 + 8) s.data with
  | some (v, rest) =>
    match skipJsonWs rest with
    | [] => some v
    | _ => none
  | none => none

/-- `ToUint8` coercion of one element of the argument to
`new Uint8Array(data)` (numbers are truncated mod 256, booleans and
nullish values coerce through `Number`). -/
def toUint8 (v : JSValue) : Nat :=
  match v with
  | .num n => (n % 256).toNat
  | .bool true => 1
  | .str s =>
    match s.toInt? with
    | some n => (n % 256).toNat
    | none => 0
  | _ => 0

/-- `new Uint8Array(data)` for an array argument.  Array-like coercion
of other values (strings, objects with a `length`) is outside the
model; the classifier only ever receives byte arrays here. -/
def toUint8Array (v : JSValue) : List Nat :=
  match v with
  | .arr xs => (elemsToList xs).map toUint8
  | _ => []

/-! ## The error-parser module (`WitActorError` classification). -/

/-- Little-endian unsigned read, byte 0 least significant
(`DataView.getBigUint64(0, true)`). -/
def leU64 (bytes : List Nat) : Nat :=
  bytes.foldr (fun b acc => b + 256 * acc) 0

/-- `parseTimeoutData`: `null` (and every other falsy value) or a
length other than 8 gives `null`; otherwise the 8 bytes are read as a
little-endian unsigned 64-bit integer of seconds. -/
def parseTimeoutData (data : JSValue) : Option Nat :=
  if !jsTruthy data then none
  else
    match data with
    | .arr xs =>
      if elemsLength xs = 8 then some (leU64 (toUint8Array data)) else none
    | _ => none

/-- `parseStringData`: falsy data gives `null`, otherwise the bytes
are decoded as (lenient) UTF-8. -/
def parseStringData (data : JSValue) : Option String :=
  if !jsTruthy data then none
  else some (utf8Decode (toUint8Array data))

/-- `parseInternalErrorData`: falsy data gives `null`; otherwise the
UTF-8 decoded bytes are parsed as JSON, a parse failure degrading to a
fixed fallback string. -/
def parseInternalErrorData (data : JSValue) : JSValue :=
  if !jsTruthy data then .null
  else
    match jsonParse (utf8Decode (toUint8Array data)) with
    | some v => v
    | none => .str "Could not parse internal error details."

/-- `funcName || 'unknown'` style defaulting of a nullable string
(the empty string is falsy and also falls back). -/
def strFalsyOr (o : Option String) (d : String) : String :=
  match o with
  | some s => if s = "" then d else s
  | none => d

/-- The error kinds `formatWitActorError` matches by name. -/
def knownErrorKind (s : String) : Bool :=
  s == "operation-timeout" || s == "channel-closed"
    || s == "shutting-down" || s == "function-not-found"
    || s == "type-mismatch" || s == "internal" || s == "Internal"
    || s == "serialization-error" || s == "update-component-error"
    || s == "paused"

/-- `formatWitActorError`: map one `error_type` tag plus raw data to a
human sentence.  Note the `operation-timeout` branch: the template is
`timeout ? `${timeout} seconds` : 'a specified duration'`, a
*truthiness* test on the decoded `BigInt`, so the decoded value 0
falls back to the generic wording. -/
def formatWitActorError (error_type : JSValue) (data : JSValue) :
    String :=
  if jsEqStr error_type "operation-timeout" then
    "Operation timed out after "
      ++ (match parseTimeoutData data with
          | some n =>
            if n ≠ 0 then toString n ++ " seconds"
            else "a specified duration"
          | none => "a specified duration")
      ++ "."
  else if jsEqStr error_type "channel-closed" then
    "Communication channel to the actor was closed unexpectedly."
  else if jsEqStr error_type "shutting-down" then
    "Actor is shutting down and cannot accept new operations."
  else if jsEqStr error_type "function-not-found" then
    "Error: The function " ++ apos
      ++ strFalsyOr (parseStringData data) "unknown" ++ apos
      ++ " was not found in the actor."
  else if jsEqStr error_type "type-mismatch" then
    "Error: A parameter or return type did not match for function "
      ++ apos ++ strFalsyOr (parseStringData data) "unknown" ++ apos
      ++ "."
  else if jsEqStr error_type "internal" || jsEqStr error_type "Internal" then
    let internalDetails := parseInternalErrorData data
    if jsTruthy internalDetails
        && (match getProp internalDetails "description" with
            | .str _ => true
            | _ => false) then
      "An internal actor error occurred: "
        ++ jsToString (getProp internalDetails "description")
    else
      "An internal actor error occurred. Check the logs for more details."
  else if jsEqStr error_type "serialization-error" then
    "Failed to serialize or deserialize data for actor communication."
  else if jsEqStr error_type "update-component-error" then
    "Failed to update the actor" ++ apos ++ "s component: "
      ++ strFalsyOr (parseStringData data) "no details available" ++ "."
  else if jsEqStr error_type "paused" then
    "The actor is paused and cannot process operations."
  else
    "An unknown actor error occurred: "
      ++ jsonStringifyD (jsObj [("error_type", error_type), ("data", data)])

/-- The `{KindName: payload}` / `{error_type, data}` / fallback
dispatch of `formatActorError` once the argument is known to be a
non-null object that is not an `Error` instance. -/
def formatActorErrorObj (v : JSValue) : String :=
  let restObj :=
    if hasProp v "error_type" then
      formatWitActorError (getProp v "error_type") (getProp v "data")
    else jsonStringifyD v
  match objectKeys v with
  | [k] =>
    let payload := getProp v k
    if jsIsNonNullObject payload && hasProp payload "data" then
      formatWitActorError (.str k) (getProp payload "data")
    else restObj
  | _ => restObj

/-- `formatActorError`: total classification of an arbitrary error
value into a human-readable string. -/
def formatActorError (v : JSValue) : String :=
  match v with
  | .jsError msg => msg
  | _ =>
    if jsIsNonNullObject v then formatActorErrorObj v
    else jsToString v

/-- Is the value a native `Error` instance (`error instanceof Error`)? -/
def isNativeError (v : JSValue) : Bool :=
  match v with
  | .jsError _ => true
  | _ => false

/-- An 8-byte little-endian payload of all zero bytes. -/
def zeroTimeoutData : JSValue := jsArr (List.replicate 8 (.num 0))

/-- C1 fails on the code at the decoded value 0: `parseTimeoutData`
correctly recovers 0 from the all-zero 8-byte payload, but the message
template tests the decoded `BigInt` for *truthiness* (`timeout ?`),
and `0n` is falsy, so the message degrades to the generic wording
instead of reporting "0 seconds".  Every nonzero value, up to the
maximum of the 64-bit space, is reported exactly. -/
theorem operation_timeout_zero_seconds_dropped :
    parseTimeoutData zeroTimeoutData = some 0
    ∧ formatWitActorError (.str "operation-timeout") zeroTimeoutData
        = "Operation timed out after a specified duration."
    ∧ formatActorError
          (jsObj [("error_type", .str "operation-timeout"),
                  ("data", zeroTimeoutData)])
        = "Operation timed out after a specified duration."
    ∧ formatWitActorError (.str "operation-timeout")
          (jsArr ((JSValue.num 1) :: List.replicate 7 (.num 0)))
        = "Operation timed out after 1 seconds."
    ∧ formatWitActorError (.str "operation-timeout")
          (jsArr (List.replicate 8 (.num 255)))
        = "Operation timed out after 18446744073709551615 seconds." := by
  refine ⟨by decide, by decide, by decide, by decide, by decide⟩

/-- C2: `formatActorError` is a total function on the value model and
classifies every enumerated input shape: a native exception passes its
message through, both structured envelopes dispatch to
`formatWitActorError`, an unrecognized kind stringifies
`{error_type, data}` verbatim into the message, an object of
unrecognized shape is JSON-stringified, and a non-object is
`String`-coerced. -/
theorem formatActorError_total_classification :
    (∀ m : String, formatActorError (.jsError m) = m)
    ∧ (∀ (et : String) (d : JSValue), knownErrorKind et = false →
        formatWitActorError (.str et) d
          = "An unknown actor error occurred: "
            ++ jsonStringifyD
                (jsObj [("error_type", .str et), ("data", d)]))
    ∧ (∀ (et : String) (d : JSValue),
        formatActorError (jsObj [("error_type", .str et), ("data", d)])
          = formatWitActorError (.str et) d)
    ∧ (∀ (k : String) (d : JSValue),
        formatActorError (jsObj [(k, jsObj [("data", d)])])
          = formatWitActorError (.str k) d)
    ∧ (∀ v : JSValue, isNativeError v = false
        → jsIsNonNullObject v = true
        → hasProp v "error_type" = false
        → (objectKeys v).length ≠ 1
        → formatActorError v = jsonStringifyD v)
    ∧ (∀ v : JSValue, jsIsNonNullObject v = false
        → formatActorError v = jsToString v)
    ∧ formatActorError
          (jsObj [("error_type", .str "bizarre-kind"), ("data", .null)])
        = "An unknown actor error occurred: \x7b\"error_type\":\"bizarre-kind\",\"data\":null\x7d" := by
  refine ⟨fun m => rfl, ?_, fun et d => rfl, ?_, ?_, ?_, by decide⟩
  · intro et d h
    simp only [knownErrorKind, Bool.or_eq_false_iff,
      beq_eq_false_iff_ne, ne_eq] at h
    obtain ⟨⟨⟨⟨⟨⟨⟨⟨⟨h1, h2⟩, h3⟩, h4⟩, h5⟩, h6⟩, h7⟩, h8⟩, h9⟩, h10⟩ := h
    simp [formatWitActorError, jsEqStr, h1, h2, h3, h4, h5, h6, h7, h8,
      h9, h10]
  · intro k d
    simp [formatActorError, formatActorErrorObj, jsObj, objectKeys,
      fieldKeys, getProp, lookupField, jsIsNonNullObject, hasProp,
      hasField]
  · intro v h0 h1 h2 h3
    have hobj : formatActorError v = formatActorErrorObj v := by
      cases v <;> simp_all [formatActorError, isNativeError,
        jsIsNonNullObject]
    rw [hobj]
    unfold formatActorErrorObj
    rcases hk : objectKeys v with _ | ⟨k, _ | ⟨k2, ks⟩⟩
    · simp [hk, h2]
    · exact absurd (by rw [hk]; rfl) h3
    · simp [hk, h2]
  · intro v h
    cases v <;> simp_all [formatActorError, jsIsNonNullObject]

/-- Closed witness for `formatActorError_total_classification`,
discharging its hypotheses at concrete inputs: an unknown kind with a
byte payload, a two-key array (unrecognized shape), and a plain
number. -/
theorem formatActorError_total_classification_witness :
    (knownErrorKind "mystery-kind" = false
      ∧ formatWitActorError (.str "mystery-kind") (jsArr [.num 7])
          = "An unknown actor error occurred: "
            ++ jsonStringifyD
                (jsObj [("error_type", .str "mystery-kind"),
                        ("data", jsArr [.num 7])]))
    ∧ (isNativeError (jsArr [.num 1, .num 2]) = false
      ∧ jsIsNonNullObject (jsArr [.num 1, .num 2]) = true
      ∧ hasProp (jsArr [.num 1, .num 2]) "error_type" = false
      ∧ (objectKeys (jsArr [.num 1, .num 2])).length ≠ 1
      ∧ formatActorError (jsArr [.num 1, .num 2])
          = jsonStringifyD (jsArr [.num 1, .num 2]))
    ∧ (jsIsNonNullObject (.num 42) = false
      ∧ formatActorError (.num 42) = jsToString (.num 42)) :=
  ⟨⟨by decide,
    formatActorError_total_classification.2.1 "mystery-kind"
      (jsArr [.num 7]) (by decide)⟩,
   ⟨by decide, by decide, by decide, by decide,
    formatActorError_total_classification.2.2.2.2.1
      (jsArr [.num 1, .num 2]) (by decide) (by decide) (by decide)
      (by decide)⟩,
   ⟨by decide,
    formatActorError_total_classification.2.2.2.2.2.1
      (.num 42) (by decide)⟩⟩

/-! ## The stream decoder: the `channelStream.onMessage` frame
handlers.

Two variants exist in the source.  The *simplified* variant appends
complete assistant messages as text accumulates; the
*pending-placeholder* variant folds the frame's text into the current
pending assistant message and opens a fresh placeholder per turn.
A frame arrives as bytes which `Buffer`/`JSON.parse` (platform code)
turn into a value or an exception; the handlers receive that outcome
as an `Except`, and every raise inside the handler body is funnelled
to the surrounding `catch`. -/

/-- The UI state a frame handler touches. -/
structure UIState where
  messages : List Message
  isGenerating : Bool
deriving DecidableEq, Repr

/-- The message of the `TypeError` raised by a property read on a
nullish value (the wording is the platform's, immaterial here). -/
def typeErrorNullish : String :=
  "Cannot read properties of undefined"

/-- Whitespace for `String.prototype.trim` (the common characters). -/
def isWsChar (c : Char) : Bool :=
  c = ' ' || c = '\t' || c = '\n' || c = '\r'

/-- `s.trim()`. -/
def jsTrim (s : String) : String :=
  String.mk (((s.data.dropWhile isWsChar).reverse.dropWhile
    isWsChar).reverse)

/-- `block?.name || 'unknown'` and the tool argument extraction
`block?.input ? Object.values(block.input) : []` of a `tool_use`
content block. -/
def toolCallOfBlock (b : JSValue) : String × List String :=
  (if jsTruthy (optChain b "name") then jsToString (optChain b "name")
   else "unknown",
   if jsTruthy (optChain b "input") then objectValuesStr (optChain b "input")
   else [])

/-- The content-block loop of the simplified handler: text blocks grow
`textContent` and, whenever the accumulated text is nonblank, append a
*complete* assistant message; `tool_use` blocks insert a tool message
immediately; other block types are ignored. -/
def processBlocksSimple (msgs : List Message) (blocks : List JSValue)
    (textContent : String) (now : Nat) : List Message :=
  match blocks with
  | [] => msgs
  | b :: rest =>
    if jsEqStr (optChain b "type") "text" && jsTruthy (optChain b "text")
    then
      let textContent' := textContent ++ jsToString (optChain b "text")
      let msgs' :=
        if jsTrim textContent' ≠ "" then
          addMessage msgs .assistant textContent' .complete none none now
        else msgs
      processBlocksSimple msgs' rest textContent' now
    else if jsEqStr (optChain b "type") "tool_use" then
      let tc := toolCallOfBlock b
      processBlocksSimple (addToolMessage msgs tc.1 tc.2 now) rest
        textContent now
    else processBlocksSimple msgs rest textContent now

/-- The body of the simplified handler on a parsed frame value.  A
`TypeError` (reading `.type` on a nullish parse result, or indexing a
missing `content` in the user-echo branch) propagates as `.error` to
the handler's `catch`. -/
def handleFrameSimpleBody (st : UIState) (v : JSValue) (now : Nat) :
    Except String UIState :=
  match v with
  | .undefined => .error typeErrorNullish
  | .null => .error typeErrorNullish
  | _ =>
    if jsEqStr (getProp v "type") "chat_message"
        && jsTruthy (getProp v "message") then
      let entry := optChain (optChain v "message") "entry"
      let isUserMessage :=
        jsEqStr (optChain (optChain entry "Message") "role") "user"
      if !isUserMessage then
        let mc := jsOr (optChain (optChain entry "Message") "content")
                       (optChain (optChain entry "Completion") "content")
        let sr := jsOr (optChain (optChain entry "Message") "stop_reason")
                       (optChain (optChain entry "Completion") "stop_reason")
        let st1 :=
          match mc with
          | .arr blocks =>
            { st with messages :=
                processBlocksSimple st.messages (elemsToList blocks) "" now }
          | .str s =>
            if jsTrim s ≠ "" then
              { st with messages :=
                  addMessage st.messages .assistant s .complete none none now }
            else st
          | _ => st
        .ok (if jsEqStr sr "end_turn" then
              { st1 with isGenerating := false }
             else st1)
      else
        let mc := optChain (optChain entry "Message") "content"
        match mc with
        | .undefined => .error typeErrorNullish
        | .null => .error typeErrorNullish
        | _ =>
          let t := optChain (jsIndex mc 0) "text"
          let text := if jsTruthy t then jsToString t else ""
          .ok { st with messages :=
              addMessage st.messages .user text .complete none none now }
    else .ok st

/-- The `catch` arm of the simplified handler:
`addMessage('error', `Error: ${formatActorError(error)}`)` plus
`setIsGenerating(false)`. -/
def frameCatchSimple (st : UIState) (e : String) (now : Nat) : UIState :=
  { messages :=
      addMessage st.messages .error
        ("Error: " ++ formatActorError (.jsError e)) .complete none none
        now,
    isGenerating := false }

/-- The simplified frame handler: decode outcome in, new UI state out;
any raise lands in the `catch` arm, never escaping the handler. -/
def handleFrameSimple (st : UIState) (parsed : Except String JSValue)
    (now : Nat) : UIState :=
  match parsed with
  | .error e => frameCatchSimple st e now
  | .ok v =>
    match handleFrameSimpleBody st v now with
    | .ok st' => st'
    | .error e => frameCatchSimple st e now

/-- The content-block loop of the pending-placeholder handler: text is
concatenated into `fullContent`, tool calls are collected in order. -/
def processBlocksPending (blocks : List JSValue)
    (fullContent : String) (toolCalls : List (String × List String)) :
    String × List (String × List String) :=
  match blocks with
  | [] => (fullContent, toolCalls)
  | b :: rest =>
    if jsEqStr (optChain b "type") "text" && jsTruthy (optChain b "text")
    then
      processBlocksPending rest
        (fullContent ++ jsToString (optChain b "text")) toolCalls
    else if jsEqStr (optChain b "type") "tool_use" then
      processBlocksPending rest fullContent
        (toolCalls ++ [toolCallOfBlock b])
    else processBlocksPending rest fullContent toolCalls

/-- Content processing of the pending-placeholder handler: when the
content is a block array, the accumulated text (if nonblank) is folded
into the last pending message — completing it — and *then* each
collected tool call is inserted.  (The `else if typeof messageContent
=== 'string'` arm of the source sits inside the `Array.isArray`
branch and is unreachable.) -/
def processContentPending (msgs : List Message) (mc : JSValue)
    (now : Nat) : List Message :=
  match mc with
  | .arr blocks =>
    let fc := processBlocksPending (elemsToList blocks) "" []
    let msgs1 :=
      if jsTrim fc.1 ≠ "" then
        updateLastPendingMessage msgs fc.1 .complete
      else msgs
    fc.2.foldl (fun ms tc => addToolMessage ms tc.1 tc.2 now) msgs1
  | _ => msgs

/-- The body of the pending-placeholder handler on a parsed frame
value: process the content blocks, then — when `stop_reason` is
truthy and differs from `"end_turn"` — open a fresh pending assistant
placeholder, otherwise finish the generation. -/
def handleFramePendingBody (st : UIState) (v : JSValue) (now : Nat) :
    Except String UIState :=
  match v with
  | .undefined => .error typeErrorNullish
  | .null => .error typeErrorNullish
  | _ =>
    if jsEqStr (getProp v "type") "chat_message"
        && jsTruthy (getProp v "message") then
      let entry := optChain (optChain v "message") "entry"
      let isUserMessage :=
        jsEqStr (optChain (optChain entry "Message") "role") "user"
      if !isUserMessage then
        let mc := jsOr (optChain (optChain entry "Message") "content")
                       (optChain (optChain entry "Completion") "content")
        let sr := jsOr (optChain (optChain entry "Message") "stop_reason")
                       (optChain (optChain entry "Completion") "stop_reason")
        let st1 := { st with messages :=
            processContentPending st.messages mc now }
        .ok (if jsTruthy sr && !jsEqStr sr "end_turn" then
              { st1 with messages :=
                  addPendingMessage st1.messages .assistant "" now }
             else { st1 with isGenerating := false })
      else .ok st
    else .ok st

/-- The `catch` arm of the pending-placeholder handler (note the
`system` role: `addMessage('system', `Error: ...`)`). -/
def frameCatchPending (st : UIState) (e : String) (now : Nat) :
    UIState :=
  { messages :=
      addMessage st.messages .system ("Error: " ++ e) .complete none
        none now,
    isGenerating := false }

/-- The pending-placeholder frame handler. -/
def handleFramePending (st : UIState) (parsed : Except String JSValue)
    (now : Nat) : UIState :=
  match parsed with
  | .error e => frameCatchPending st e now
  | .ok v =>
    match handleFramePendingBody st v now with
    | .ok st' => st'
    | .error e => frameCatchPending st e now

/-- A `chat_message` frame whose entry is an assistant `Message` with
the given `content` and `stop_reason`. -/
def mkAssistantFrame (content stopReason : JSValue) : JSValue :=
  jsObj [("type", .str "chat_message"),
         ("message", jsObj [("entry", jsObj [("Message",
            jsObj [("role", .str "assistant"),
                   ("content", content),
                   ("stop_reason", stopReason)])])])]

/-- A `text` content block. -/
def textBlock (s : String) : JSValue :=
  jsObj [("type", .str "text"), ("text", .str s)]

/-- A `tool_use` content block without an input map. -/
def toolUseBlock (name : String) : JSValue :=
  jsObj [("type", .str "tool_use"), ("name", .str name)]

/-- C4 fails on the code: for the frame with blocks
`[text("a"), tool_use("t1"), text("b")]` and a pending assistant
placeholder present, the handler first folds `"ab"` into the
placeholder — *completing* it — and only then inserts the tool
message, whose search for a pending assistant now fails, so the tool
message is appended *after* the assistant message instead of
immediately before it (the content `"ab"` and the single tool message
themselves are as claimed). -/
theorem tool_message_lands_after_assistant :
    handleFramePending
        ⟨[{ role := .assistant, content := "", timestamp := 0,
            status := .pending }], true⟩
        (.ok (mkAssistantFrame
          (jsArr [textBlock "a", toolUseBlock "t1", textBlock "b"])
          .undefined)) 5
      = ⟨[{ role := .assistant, content := "ab", timestamp := 0,
            status := .complete },
          mkToolMessage "t1" [] 5], false⟩ := by
  decide

/-- The pending-placeholder handler on an assistant frame, reduced to
its two phases: content processing, then the stop-reason decision. -/
theorem handleFramePending_assistantFrame (st : UIState)
    (content sr : JSValue) (now : Nat) :
    handleFramePending st (.ok (mkAssistantFrame content sr)) now
      = (if jsTruthy (jsOr sr .undefined)
            && !jsEqStr (jsOr sr .undefined) "end_turn" then
          { messages :=
              addPendingMessage
                (processContentPending st.messages (jsOr content .undefined)
                  now) .assistant "" now,
            isGenerating := st.isGenerating }
         else
          { messages :=
              processContentPending st.messages (jsOr content .undefined) now,
            isGenerating := false }) := rfl

/-- C9 fails as stated at the empty-string stop reason: `""` is
non-null and differs from `"end_turn"`, yet the guard
`stopReason && stopReason !== 'end_turn'` is falsy on it, so the
handler clears the generation flag and opens no fresh placeholder. -/
theorem stop_reason_empty_clears_generation :
    ("" : String) ≠ "end_turn"
    ∧ (handleFramePending ⟨[], true⟩
        (.ok (mkAssistantFrame .undefined (.str ""))) 7).isGenerating = false
    ∧ (handleFramePending ⟨[], true⟩
        (.ok (mkAssistantFrame .undefined (.str ""))) 7).messages = [] := by
  refine ⟨by decide, by decide, by decide⟩

/-- C9 (amended): for an assistant frame, a stop reason equal to
`"end_turn"` clears the generation flag; every *truthy* (non-null,
non-empty) other stop reason leaves the generation flag unchanged and
appends a fresh pending assistant placeholder after the processed
content, rather than reusing the finished one. -/
theorem stop_reason_turn_handling (st : UIState) (content : JSValue)
    (r : String) (now : Nat) :
    (handleFramePending st
        (.ok (mkAssistantFrame content (.str "end_turn"))) now).isGenerating
      = false
    ∧ (r ≠ "end_turn" → r ≠ "" →
        (handleFramePending st
            (.ok (mkAssistantFrame content (.str r))) now).isGenerating
          = st.isGenerating
        ∧ (handleFramePending st
            (.ok (mkAssistantFrame content (.str r))) now).messages
          = addPendingMessage
              (processContentPending st.messages (jsOr content .undefined) now)
              .assistant "" now) := by
  constructor
  · rw [handleFramePending_assistantFrame]
    rfl
  · intro hne hr
    rw [handleFramePending_assistantFrame]
    have h1 : jsTruthy (jsOr (.str r) .undefined) = true := by
      simp [jsOr, jsTruthy, hr]
    have h2 : jsEqStr (jsOr (.str r) .undefined) "end_turn" = false := by
      simp [jsOr, jsTruthy, jsEqStr, hr, hne]
    rw [if_pos (by rw [h1, h2]; rfl)]
    exact ⟨rfl, rfl⟩

/-- Closed witness for `stop_reason_turn_handling` at the stop reason
`"tool_use"` and a concrete one-block frame. -/
theorem stop_reason_turn_handling_witness :
    ("tool_use" : String) ≠ "end_turn" ∧ ("tool_use" : String) ≠ ""
    ∧ ((handleFramePending ⟨[], true⟩
          (.ok (mkAssistantFrame (jsArr [textBlock "hi"])
            (.str "tool_use"))) 4).isGenerating = true
      ∧ (handleFramePending ⟨[], true⟩
          (.ok (mkAssistantFrame (jsArr [textBlock "hi"])
            (.str "tool_use"))) 4).messages
        = addPendingMessage
            (processContentPending [] (jsOr (jsArr [textBlock "hi"]) .undefined) 4)
            .assistant "" 4) :=
  ⟨by decide, by decide,
   (stop_reason_turn_handling ⟨[], true⟩ (jsArr [textBlock "hi"])
      "tool_use" 4).2 (by decide) (by decide)⟩

/-- C7: the simplified frame handler never throws — a frame whose
bytes fail to decode (the `Except.error` outcome of
`Buffer`/`JSON.parse`), and equally a frame whose processing raises
inside the body, lands in the `catch` arm, which appends exactly one
`error`-role transcript message and clears the generation flag. -/
theorem malformed_frame_appends_error_message :
    (∀ (st : UIState) (e : String) (now : Nat),
      handleFrameSimple st (.error e) now
        = { messages := st.messages
              ++ [{ role := .error,
                    content := "Error: " ++ formatActorError (.jsError e),
                    timestamp := now, status := .complete }],
            isGenerating := false })
    ∧ (∀ (st : UIState) (v : JSValue) (now : Nat) (e : String),
        handleFrameSimpleBody st v now = Except.error e →
        handleFrameSimple st (.ok v) now
          = { messages := st.messages
                ++ [{ role := .error,
                      content := "Error: " ++ formatActorError (.jsError e),
                      timestamp := now, status := .complete }],
              isGenerating := false }) := by
  constructor
  · intro st e now
    rfl
  · intro st v now e h
    show (match handleFrameSimpleBody st v now with
          | .ok st' => st'
          | .error e => frameCatchSimple st e now) = _
    rw [h]
    rfl

/-- Closed witness for `malformed_frame_appends_error_message`: a user
frame without a `content` field makes the body raise (the `content[0]`
read), and the handler converts it to one error entry. -/
theorem malformed_frame_appends_error_message_witness :
    handleFrameSimpleBody ⟨[], true⟩
        (jsObj [("type", .str "chat_message"),
                ("message", jsObj [("entry", jsObj [("Message",
                   jsObj [("role", .str "user")])])])]) 3
      = Except.error typeErrorNullish
    ∧ handleFrameSimple ⟨[], true⟩
        (.ok (jsObj [("type", .str "chat_message"),
                ("message", jsObj [("entry", jsObj [("Message",
                   jsObj [("role", .str "user")])])])])) 3
      = { messages :=
            [{ role := .error,
               content := "Error: "
                 ++ formatActorError (.jsError typeErrorNullish),
               timestamp := 3, status := .complete }],
          isGenerating := false } :=
  ⟨rfl,
   malformed_frame_appends_error_message.2 ⟨[], true⟩ _ 3
     typeErrorNullish rfl⟩

/-! ## `sendMessage` and the cleanup / stop path of the session
lifecycle manager. -/

/-- The session-relevant UI state of the chat component: the
transcript, the generation flag, the exit flag set by `onActorExit` /
`onActorError` (the terminal states), and whether the channel handle
is populated. -/
structure SessState where
  messages : List Message
  isGenerating : Bool
  actorHasExited : Bool
  channelOpen : Bool
deriving DecidableEq, Repr

/-- `sendMessage` of the chat component: rejected up front (a no-op
performing no transport call) when the channel is missing, the text is
blank, a generation is in progress, or the actor has exited; otherwise
the generation flag is set and the trimmed text is sent through the
domain actor, a transport failure being caught into an `error` entry
with the flag cleared.  The second component lists the transport
sends performed. -/
def sendMessage (st : SessState) (text : String)
    (send : Except String Unit) (now : Nat) :
    SessState × List String :=
  if !st.channelOpen || jsTrim text == "" || st.isGenerating
      || st.actorHasExited then
    (st, [])
  else
    match send with
    | .ok _ => ({ st with isGenerating := true }, [jsTrim text])
    | .error e =>
      ({ st with
          isGenerating := false,
          messages :=
            addMessage st.messages .error
              ("Error sending message: " ++ formatActorError (.jsError e))
              .complete none none now },
       [jsTrim text])

/-- C5: when the generation flag is set or the session is in a
terminal state, `sendMessage` is a no-op — transcript and flags
unchanged and no transport call performed. -/
theorem sendMessage_rejected_while_generating (st : SessState)
    (text : String) (send : Except String Unit) (now : Nat)
    (h : st.isGenerating = true ∨ st.actorHasExited = true) :
    sendMessage st text send now = (st, []) := by
  unfold sendMessage
  rcases h with h | h <;> simp [h]

/-- Closed witness for `sendMessage_rejected_while_generating`. -/
theorem sendMessage_rejected_while_generating_witness :
    ((⟨[], true, false, true⟩ : SessState).isGenerating = true
      ∨ (⟨[], true, false, true⟩ : SessState).actorHasExited = true)
    ∧ sendMessage ⟨[], true, false, true⟩ "hello" (.ok ()) 2
        = (⟨[], true, false, true⟩, []) :=
  ⟨Or.inl rfl,
   sendMessage_rejected_while_generating _ "hello" (.ok ()) 2
     (Or.inl rfl)⟩

/-- The externally owned session resources: the channel stream and the
remote actor process. -/
structure Resources where
  channelOpen : Bool
  actorRunning : Bool
deriving DecidableEq, Repr

/-- `ActorHandle.stop()` at the transport: stopping a running actor
succeeds and stops it; stopping an already-stopped actor rejects. -/
def stopActorCall (r : Resources) : Resources × Except String Unit :=
  if r.actorRunning then
    ({ r with actorRunning := false }, .ok ())
  else (r, .error "actor already stopped")

/-- `StreamHandle.close()` at the transport. -/
def closeChannelCall (r : Resources) : Resources × Except String Unit :=
  if r.channelOpen then
    ({ r with channelOpen := false }, .ok ())
  else (r, .error "channel already closed")

/-- The actor exiting on its own (observed through `onActorExit`). -/
def actorExited (r : Resources) : Resources :=
  { r with actorRunning := false }

/-- `cleanup` of the chat component: close the channel (errors from
the inner `try` ignored), then stop the actor when a session exists;
the outer `try`/`catch` swallows a stop rejection, so the call never
raises.  The result carries the new resource state, the number of
actual stop transitions performed, and whether an exception escaped
to the caller (never, by the `catch`). -/
def cleanup (hasChannel hasSession : Bool) (r : Resources) :
    Resources × Nat × Bool :=
  let r1 := if hasChannel then (closeChannelCall r).1 else r
  if hasSession then
    match stopActorCall r1 with
    | (r2, .ok _) => (r2, 1, false)
    | (r2, .error _) => (r2, 0, false)
  else (r1, 0, false)

/-- C6: `cleanup` invoked twice in sequence raises no error and stops
the actor exactly once — the second invocation's `actor.stop()`
rejection is swallowed and changes nothing; likewise a `cleanup` after
the actor already exited raises nothing and performs no stop
transition. -/
theorem cleanup_idempotent (r : Resources) (h : r.actorRunning = true) :
    ((cleanup true true r).2.2 = false
      ∧ (cleanup true true (cleanup true true r).1).2.2 = false
      ∧ (cleanup true true r).2.1
          + (cleanup true true (cleanup true true r).1).2.1 = 1
      ∧ ((cleanup true true (cleanup true true r).1).1).actorRunning
          = false)
    ∧ ((cleanup true true (actorExited r)).2.2 = false
      ∧ (cleanup true true (actorExited r)).2.1 = 0) := by
  obtain ⟨co, ar⟩ := r
  simp only at h
  subst h
  cases co <;> decide

/-- Closed witness for `cleanup_idempotent`. -/
theorem cleanup_idempotent_witness :
    (Resources.mk true true).actorRunning = true
    ∧ (cleanup true true ⟨true, true⟩).2.1
        + (cleanup true true (cleanup true true ⟨true, true⟩).1).2.1 = 1 :=
  ⟨rfl, ((cleanup_idempotent ⟨true, true⟩ rfl).1).2.2.1⟩

end GitAgent
